import Mathlib

/-!
Verification development for the benthos message-transport core.

We shallowly embed the parts of the code base that the correctness
claims are about:

* the Redis `redis_list` and `redis_pubsub` writers
  (`internal/impl/redis/output_list.go`, `output_pubsub.go`),
* the NATS reader's ack callback (`internal/impl/nats/input.go`),
* the air-gap reader adapters and the output fallback broker, whose
  implementations are exercised only through their tests here; those
  are modelled from the specification document.

Go `error` values are embedded as an inductive `GoError`; `nil` errors
become `Option.none`.
-/

namespace Benthos

/-- Embedding of the Go error values that appear at the connector
boundaries.  The service-level sentinels (`service.ErrNotConnected`,
`service.ErrEndOfInput`), the internal sentinels
(`component.ErrNotConnected`, `component.ErrTypeClosed`,
`component.ErrTimeout`), the NATS client sentinel
(`nats.ErrMsgNoReply`) and arbitrary other errors (identified by their
message text, as produced by `errors.New`). Equality of constructors
embeds Go sentinel-value equality / `errors.Is` on these sentinels. -/
inductive GoError where
  | errNotConnectedPublic
  | errEndOfInput
  | errNotConnectedInternal
  | errTypeClosed
  | errTimeout
  | errMsgNoReply
  | errString (s : String)
deriving DecidableEq

/-- A message part: we model only the byte payload (as a string). -/
structure Part where
  payload : String
deriving DecidableEq, Inhabited

/-- A batch is an ordered sequence of parts (`*message.Batch`). -/
abbrev Batch := List Part

/-- A parsed field expression (`*field.Expression`): applying
`expr.String(i, msg)` yields the interpolated string for index `i`
of the batch.  Interpolation is consumed as an opaque pure function. -/
abbrev FieldExpression := Nat → Batch → String

/-! ## Redis writers (`output_list.go`, `output_pubsub.go`) -/

/-- A Redis command issued by one of the writers. -/
inductive RedisCmd where
  | rpush (key : String) (value : String)
  | publish (channel : String) (value : String)
deriving DecidableEq

/-- Destination (list key or pubsub channel) of a Redis command. -/
def RedisCmd.dest : RedisCmd → String
  | .rpush k _ => k
  | .publish c _ => c

/-- The sequence of RPUSH commands issued by
`redisListWriter.WriteWithContext` (output_list.go lines 120-135) for a
batch, assuming a connected client: a single message is pushed under
`keyStr.String(0, msg)`; a larger batch is pushed through a pipeline
where every iteration also evaluates the key as `keyStr.String(0, msg)`. -/
def redisListWriter.WriteWithContext (keyStr : FieldExpression) (msg : Batch) :
    List RedisCmd :=
  if msg.length = 1 then
    [RedisCmd.rpush (keyStr 0 msg) msg.headI.payload]
  else
    msg.enum.map (fun ip => RedisCmd.rpush (keyStr 0 msg) ip.2.payload)

/-- The sequence of PUBLISH commands issued by
`redisPubSubWriter.WriteWithContext` (output_pubsub.go lines 115-129)
for a batch, assuming a connected client: a single message is published
on `channelStr.String(0, msg)`; a larger batch is published through a
pipeline where iteration `i` evaluates the channel as
`channelStr.String(i, msg)`. -/
def redisPubSubWriter.WriteWithContext (channelStr : FieldExpression) (msg : Batch) :
    List RedisCmd :=
  if msg.length = 1 then
    [RedisCmd.publish (channelStr 0 msg) msg.headI.payload]
  else
    msg.enum.map (fun ip => RedisCmd.publish (channelStr ip.1 msg) ip.2.payload)

/-- Destinations of a command sequence, in order. -/
def destsOf (cmds : List RedisCmd) : List String :=
  cmds.map RedisCmd.dest

/-! ## NATS reader ack callback (`input.go` lines 195-206) -/

/-- Which operation the ack callback invoked on the source NATS message. -/
inductive NatsAckAction where
  | ack
  | nak
deriving DecidableEq

/-- A NATS message handle, modelled by the error results its `Ack` and
`Nak` methods would return when invoked. -/
structure NatsMsg where
  ackResult : Option GoError
  nakResult : Option GoError
deriving DecidableEq

/-- The ack callback returned by `natsReader.ReadWithContext`
(input.go lines 195-206): on a non-nil result it calls `msg.Nak()`,
otherwise `msg.Ack()`; an `nats.ErrMsgNoReply` outcome of either is
swallowed (replaced by nil); any other outcome is returned.  We return
both the action performed and the error handed back to the caller. -/
def natsReader.ackFn (msg : NatsMsg) (res : Option GoError) :
    NatsAckAction × Option GoError :=
  let action := if res.isSome then NatsAckAction.nak else NatsAckAction.ack
  let ackErr := match action with
    | NatsAckAction.nak => msg.nakResult
    | NatsAckAction.ack => msg.ackResult
  (action, if ackErr = some GoError.errMsgNoReply then none else ackErr)

/-- The Ack/Nak result selected by the callback, before the
`ErrMsgNoReply` filtering. -/
def natsReader.underlyingAckErr (msg : NatsMsg) (res : Option GoError) :
    Option GoError :=
  if res.isSome then msg.nakResult else msg.ackResult

/-! ## Air-gap reader adapters -/

/-- An ack callback (`AckFunc` / `input.AsyncAckFn`): given the ack
outcome (nil for success), it returns an error of its own. -/
abbrev AckFn := Option GoError → Option GoError

/-- Result of a `Read` / `ReadBatch` call: either a payload together
with its ack callback, or an error (in which case no record is
emitted). -/
inductive ReadResult (α : Type) where
  | ok (msg : α) (ack : AckFn)
  | err (e : GoError)

/-- The ack callback surfaced by a read result (identity on errors for
the failure case, which surfaces no callback). -/
def ReadResult.ackOf : ReadResult α → AckFn
  | .ok _ a => a
  | .err _ => fun e => e

/-- A public-API message (`service.Message`), carrying one part. -/
structure Message where
  payload : String
deriving DecidableEq

/-- Modelled from the spec: the error mapping applied by the air-gap
reader adapters (`newAirGapReader` / `newAirGapBatchReader`, whose
implementation is absent here and is exercised only by its tests).
The spec's sentinel table states `NotConnected` surfaces as the
internal `NotConnected` and `EndOfInput` maps to `TypeClosed`, while
unknown errors propagate untransformed. -/
def airGapMapErr (e : GoError) : GoError :=
  match e with
  | GoError.errNotConnectedPublic => GoError.errNotConnectedInternal
  | GoError.errEndOfInput => GoError.errTypeClosed
  | e => e

/-- Modelled from the spec: `ConnectWithContext` of the air-gap reader
(implementation absent) delegates to the inner input's `Connect` and
maps the public `NotConnected` sentinel; any other error — e.g. `bad
connect` in scenario S3 — is surfaced verbatim. -/
def airGapConnectWithContext (innerConnect : Option GoError) : Option GoError :=
  match innerConnect with
  | some GoError.errNotConnectedPublic => some GoError.errNotConnectedInternal
  | e => e

/-- Modelled from the spec: `ReadWithContext` of the single-message
air-gap reader (implementation absent).  On success the single public
message becomes a one-part internal batch and the surfaced ack callback
forwards its error to the inner callback; on failure the sentinel
mapping of S4 is applied and no record is emitted. -/
def airGapReadWithContext (inner : ReadResult Message) : ReadResult (List String) :=
  match inner with
  | ReadResult.ok m ack => ReadResult.ok [m.payload] (fun e => ack e)
  | ReadResult.err e => ReadResult.err (airGapMapErr e)

/-- Modelled from the spec: `ReadWithContext` of the batch air-gap
reader (implementation absent).  The surfaced internal batch holds the
inner batch's parts in order, the surfaced ack callback forwards its
error to the inner callback, and errors are mapped as in S4. -/
def airGapBatchReadWithContext (inner : ReadResult (List Message)) :
    ReadResult (List String) :=
  match inner with
  | ReadResult.ok msgs ack => ReadResult.ok (msgs.map Message.payload) (fun e => ack e)
  | ReadResult.err e => ReadResult.err (airGapMapErr e)

/-- Modelled from the spec: shutdown-relevant state of an air-gap
reader — whether `CloseAsync` has signalled intent, and whether the
inner input's `Close` has been invoked. -/
structure AirGapCloseState where
  closeSignalled : Bool
  innerClosed : Bool
deriving DecidableEq

/-- Initial state of a freshly constructed air-gap reader. -/
def airGapInit : AirGapCloseState := ⟨false, false⟩

/-- Modelled from the spec: `CloseAsync` is non-blocking and only
signals intent. -/
def airGapCloseAsync (s : AirGapCloseState) : AirGapCloseState :=
  { s with closeSignalled := true }

/-- Modelled from the spec: `WaitForClose(timeout)` invokes the inner
input's `Close` and returns nil once close was signalled; before any
`CloseAsync` the deadline elapses and a timeout error (`action timed
out`) is returned without touching the inner input. -/
def airGapWaitForClose (s : AirGapCloseState) : AirGapCloseState × Option GoError :=
  if s.closeSignalled then
    ({ s with innerClosed := true }, none)
  else
    (s, some (GoError.errString "action timed out"))

/-! ## Fallback broker -/

/-- An observable event of one fallback-broker walking task: a child
output observing (receiving) the batch, a child acking the batch, or
the broker acking on the upstream transaction's response-sink. -/
inductive FbEvent where
  | deliver (child : Nat)
  | childAck (child : Nat) (res : Option GoError)
  | respond (res : Option GoError)
deriving DecidableEq

/-- Modelled from the spec: the walking task of the fallback broker
(`newFallbackBroker` in `output_fallback.go`, whose implementation is
absent here and is exercised only by its tests), started at child
index `i`.  The remaining children are represented by the ack each
would give the batch (`none` = success).  Per spec section 4.4: send
the batch to the first child and await its ack; on success respond
success upstream; on failure forward the same batch to the next child;
if the last child also fails, respond with that last failure. -/
def fallbackWalkFrom (i : Nat) : List (Option GoError) → List FbEvent
  | [] => [FbEvent.respond none]
  | [a] => [FbEvent.deliver i, FbEvent.childAck i a, FbEvent.respond a]
  | a :: b :: rest =>
    match a with
    | none => [FbEvent.deliver i, FbEvent.childAck i none, FbEvent.respond none]
    | some e => FbEvent.deliver i :: FbEvent.childAck i (some e) ::
        fallbackWalkFrom (i + 1) (b :: rest)

/-- The event trace of one transaction walked through the fallback
chain, children indexed from 0. -/
def fallbackTrace (acks : List (Option GoError)) : List FbEvent :=
  fallbackWalkFrom 0 acks

/-- The final ack a walk reports upstream: success as soon as some
child succeeds, otherwise the last child's failure. -/
def fallbackResult : List (Option GoError) → Option GoError
  | [] => none
  | [a] => a
  | a :: b :: rest =>
    match a with
    | none => none
    | some _ => fallbackResult (b :: rest)

/-- Child indices of the delivery events of a trace, in order. -/
def deliversOf : List FbEvent → List Nat
  | [] => []
  | FbEvent.deliver j :: rest => j :: deliversOf rest
  | _ :: rest => deliversOf rest

/-- Acks sent on the upstream response-sink, in order. -/
def respondsOf : List FbEvent → List (Option GoError)
  | [] => []
  | FbEvent.respond r :: rest => r :: respondsOf rest
  | _ :: rest => respondsOf rest

/-- Modelled from the spec: the close-relevant state of the fallback
broker (implementation absent) — whether its shutdown-signal channel
has been closed, and how many times closure has been propagated to the
children. -/
structure FallbackBrokerState where
  shutChanClosed : Bool
  childCloseCalls : Nat
deriving DecidableEq

/-- Closing a Go channel panics (`none`) when the channel is already
closed; otherwise it succeeds. -/
def goCloseChan (alreadyClosed : Bool) : Option Unit :=
  if alreadyClosed then none else some ()

/-- Modelled from the spec: `CloseAsync` of the fallback broker
(implementation absent).  Per spec sections 4.4 and 9, it is guarded so
that a second call is a no-op: only when the shutdown signal is not yet
closed does it close the signal channel and propagate closure to all
children. `none` models a panic. -/
def fallbackBroker.CloseAsync (b : FallbackBrokerState) : Option FallbackBrokerState :=
  if b.shutChanClosed then
    some b
  else
    match goCloseChan b.shutChanClosed with
    | none => none
    | some _ => some { shutChanClosed := true, childCloseCalls := b.childCloseCalls + 1 }

/-- `n`-fold repetition of `CloseAsync`, propagating a panic. -/
def closeAsyncN : Nat → FallbackBrokerState → Option FallbackBrokerState
  | 0, b => some b
  | n + 1, b => (fallbackBroker.CloseAsync b).bind (closeAsyncN n)

/-! ## Helper lemmas about the fallback walk -/

/-- A walk over a non-empty chain starts by delivering to its first
child. -/
theorem fallbackWalkFrom_head (i : Nat) (a : Option GoError)
    (l : List (Option GoError)) :
    ∃ tail, fallbackWalkFrom i (a :: l) = FbEvent.deliver i :: tail := by
  cases l with
  | nil => exact ⟨_, rfl⟩
  | cons b rest =>
    cases a with
    | none => exact ⟨_, rfl⟩
    | some e => exact ⟨_, rfl⟩

/-- Every walk responds exactly once on the upstream response-sink,
with the walk's result. -/
theorem respondsOf_fallbackWalkFrom (i : Nat) (l : List (Option GoError)) :
    respondsOf (fallbackWalkFrom i l) = [fallbackResult l] := by
  induction l generalizing i with
  | nil => rfl
  | cons a rest ih =>
    cases rest with
    | nil => rfl
    | cons b rest' =>
      cases a with
      | none => rfl
      | some e =>
        simp only [fallbackWalkFrom, respondsOf, fallbackResult]
        exact ih (i + 1)

/-- When every child fails, every child of the chain observes the
batch, in chain order. -/
theorem deliversOf_fallbackWalkFrom_allFail (i : Nat) (l : List (Option GoError))
    (hall : ∀ a ∈ l, a.isSome) :
    deliversOf (fallbackWalkFrom i l) = List.range' i l.length := by
  induction l generalizing i with
  | nil => rfl
  | cons a rest ih =>
    cases rest with
    | nil => simp [fallbackWalkFrom, deliversOf, List.range']
    | cons b rest' =>
      have ha : a.isSome := hall a (by simp)
      obtain ⟨e, rfl⟩ := Option.isSome_iff_exists.mp ha
      simp only [fallbackWalkFrom, deliversOf, List.length_cons, List.range']
      rw [ih (i + 1) (fun x hx => hall x (by simp [hx]))]
      rfl

/-- When every child fails, the walk's result is the last child's
failure. -/
theorem fallbackResult_allFail (l : List (Option GoError)) (h : l ≠ [])
    (hall : ∀ a ∈ l, a.isSome) : fallbackResult l = l.getLast h := by
  induction l with
  | nil => exact absurd rfl h
  | cons a rest ih =>
    cases rest with
    | nil => rfl
    | cons b rest' =>
      have ha : a.isSome := hall a (by simp)
      obtain ⟨e, rfl⟩ := Option.isSome_iff_exists.mp ha
      rw [List.getLast_cons (by simp)]
      simp only [fallbackResult]
      exact ih (by simp) (fun x hx => hall x (by simp [hx]))

/-- A delivery event of a walk started at index `i` addresses a child
of index at least `i`. -/
theorem deliver_mem_fallbackWalkFrom_ge (i m : Nat) (l : List (Option GoError))
    (h : FbEvent.deliver m ∈ fallbackWalkFrom i l) : i ≤ m := by
  induction l generalizing i with
  | nil => simp [fallbackWalkFrom] at h
  | cons a rest ih =>
    cases rest with
    | nil =>
      simp [fallbackWalkFrom] at h
      omega
    | cons b rest' =>
      cases a with
      | none =>
        simp [fallbackWalkFrom] at h
        omega
      | some e =>
        simp [fallbackWalkFrom] at h
        rcases h with h | h
        · omega
        · have := ih (i + 1) h
          omega

/-- Ordering invariant of a walk: a delivery to child `j + 1` occurs
only strictly after child `j` acked the batch with a failure. -/
theorem fallback_deliver_after_nack (l : List (Option GoError)) (i j : Nat)
    (hij : i ≤ j) (h : FbEvent.deliver (j + 1) ∈ fallbackWalkFrom i l) :
    ∃ (p q : Nat) (e : GoError), p < q
      ∧ (fallbackWalkFrom i l)[p]? = some (FbEvent.childAck j (some e))
      ∧ (fallbackWalkFrom i l)[q]? = some (FbEvent.deliver (j + 1)) := by
  induction l generalizing i with
  | nil => simp [fallbackWalkFrom] at h
  | cons a rest ih =>
    cases rest with
    | nil =>
      simp [fallbackWalkFrom] at h
      omega
    | cons b rest' =>
      cases a with
      | none =>
        simp [fallbackWalkFrom] at h
        omega
      | some e =>
        rcases Nat.eq_or_lt_of_le hij with heq | hlt
        · subst heq
          obtain ⟨tail, htail⟩ := fallbackWalkFrom_head (i + 1) b rest'
          refine ⟨1, 2, e, ?_, ?_, ?_⟩
          · omega
          · simp [fallbackWalkFrom]
          · simp [fallbackWalkFrom, htail]
        · have hmem : FbEvent.deliver (j + 1) ∈ fallbackWalkFrom (i + 1) (b :: rest') := by
            simp [fallbackWalkFrom] at h
            rcases h with h | h
            · omega
            · exact h
          obtain ⟨p, q, e', hpq, hp, hq⟩ := ih (i + 1) hlt hmem
          refine ⟨p + 2, q + 2, e', ?_, ?_, ?_⟩
          · omega
          · simpa [fallbackWalkFrom] using hp
          · simpa [fallbackWalkFrom] using hq

/-- Joining lists that each contain `j` exactly once yields `j` once
per list. -/
theorem count_join_of_count_eq_one (ls : List (List Nat)) (j : Nat)
    (h : ∀ l ∈ ls, l.count j = 1) : ls.flatten.count j = ls.length := by
  induction ls with
  | nil => rfl
  | cons a rest ih =>
    have ha := h a (by simp)
    have hrest := ih (fun l hl => h l (by simp [hl]))
    simp [List.count_append, ha, hrest, Nat.add_comm]

/-- `CloseAsync` leaves a fixed point: its result state is unchanged by
another `CloseAsync`. -/
theorem fallbackBroker_CloseAsync_fix (b b' : FallbackBrokerState)
    (h : fallbackBroker.CloseAsync b = some b') :
    fallbackBroker.CloseAsync b' = some b' := by
  by_cases hb : b.shutChanClosed <;>
    simp [fallbackBroker.CloseAsync, goCloseChan, hb] at h <;>
    subst h <;>
    simp [fallbackBroker.CloseAsync, hb]

/-! ## Theorems for the Redis writers (claim C9) -/

/-- A concrete interpolation expression whose value depends on the
message index, used as an explicit instance below. -/
def idxExpr : FieldExpression := fun i _ => toString i

/-- A concrete two-part batch. -/
def twoPartBatch : Batch := [⟨"a"⟩, ⟨"b"⟩]

/-- Claim C9: for every batch with more than one part,
`redisListWriter.WriteWithContext` evaluates the key expression at
index 0 for every part — all parts are RPUSHed under the key
interpolated from the first message — whereas
`redisPubSubWriter.WriteWithContext` evaluates the channel expression
at each part's own index `i`; consequently only the pubsub writer can
yield a per-message destination for multi-part batches (witnessed by an
index-dependent expression on which the pubsub destinations are not the
constant first-index key). -/
theorem redis_list_key_index_zero_pubsub_per_index
    (keyStr : FieldExpression) (msg : Batch) (h : 1 < msg.length) :
    destsOf (redisListWriter.WriteWithContext keyStr msg)
        = List.replicate msg.length (keyStr 0 msg)
  ∧ destsOf (redisPubSubWriter.WriteWithContext keyStr msg)
        = (List.range msg.length).map (fun i => keyStr i msg)
  ∧ ∃ e : FieldExpression, ∃ m : Batch, 1 < m.length ∧
      destsOf (redisPubSubWriter.WriteWithContext e m)
        ≠ List.replicate m.length (e 0 m) := by
  have hne : msg.length ≠ 1 := by omega
  refine ⟨?_, ?_, ?_⟩
  · simp only [destsOf, redisListWriter.WriteWithContext, if_neg hne, List.map_map]
    have : (RedisCmd.dest ∘ fun ip : Nat × Part =>
        RedisCmd.rpush (keyStr 0 msg) ip.2.payload) = fun _ => keyStr 0 msg := rfl
    rw [this, List.map_const', List.enum_length]
  · simp only [destsOf, redisPubSubWriter.WriteWithContext, if_neg hne, List.map_map]
    have : (RedisCmd.dest ∘ fun ip : Nat × Part =>
        RedisCmd.publish (keyStr ip.1 msg) ip.2.payload)
        = (fun i => keyStr i msg) ∘ Prod.fst := rfl
    rw [this, ← List.map_map, List.enum_map_fst]
  · exact ⟨idxExpr, twoPartBatch, by decide, by decide⟩

/-- Witness for C9 at the concrete index-dependent expression and the
concrete two-part batch. -/
theorem redis_list_key_index_zero_pubsub_per_index_witness :
    destsOf (redisListWriter.WriteWithContext idxExpr twoPartBatch)
        = List.replicate twoPartBatch.length (idxExpr 0 twoPartBatch)
  ∧ destsOf (redisPubSubWriter.WriteWithContext idxExpr twoPartBatch)
        = (List.range twoPartBatch.length).map (fun i => idxExpr i twoPartBatch)
  ∧ ∃ e : FieldExpression, ∃ m : Batch, 1 < m.length ∧
      destsOf (redisPubSubWriter.WriteWithContext e m)
        ≠ List.replicate m.length (e 0 m) :=
  redis_list_key_index_zero_pubsub_per_index idxExpr twoPartBatch (by decide)

/-! ## Theorems for the NATS ack callback (claim C10) -/

/-- Claim C10: the ack callback returned by
`natsReader.ReadWithContext` calls `Nak` on the source message when
invoked with a non-nil error and `Ack` when invoked with nil; in either
case it returns nil when the underlying Ack/Nak fails with
`nats.ErrMsgNoReply`, and returns any other Ack/Nak error to the
caller. -/
theorem natsReader_ackFn_spec (msg : NatsMsg) (res : Option GoError) :
    (res ≠ none → (natsReader.ackFn msg res).1 = NatsAckAction.nak)
  ∧ (res = none → (natsReader.ackFn msg res).1 = NatsAckAction.ack)
  ∧ (natsReader.underlyingAckErr msg res = some GoError.errMsgNoReply →
      (natsReader.ackFn msg res).2 = none)
  ∧ (natsReader.underlyingAckErr msg res ≠ some GoError.errMsgNoReply →
      (natsReader.ackFn msg res).2 = natsReader.underlyingAckErr msg res) := by
  cases res <;>
    simp [natsReader.ackFn, natsReader.underlyingAckErr] <;>
    constructor <;> intro h <;> simp [h]

/-- Witness for C10 at concrete message handles and results exercising
each hypothesis of the theorem. -/
theorem natsReader_ackFn_spec_witness :
    (natsReader.ackFn ⟨none, some GoError.errMsgNoReply⟩
        (some (GoError.errString "boom"))).1 = NatsAckAction.nak
  ∧ (natsReader.ackFn ⟨none, some GoError.errMsgNoReply⟩
        (some (GoError.errString "boom"))).2 = none
  ∧ (natsReader.ackFn ⟨some (GoError.errString "ack fail"), none⟩ none).1
        = NatsAckAction.ack
  ∧ (natsReader.ackFn ⟨some (GoError.errString "ack fail"), none⟩ none).2
        = natsReader.underlyingAckErr ⟨some (GoError.errString "ack fail"), none⟩ none :=
  ⟨(natsReader_ackFn_spec ⟨none, some GoError.errMsgNoReply⟩
      (some (GoError.errString "boom"))).1 (by decide),
   (natsReader_ackFn_spec ⟨none, some GoError.errMsgNoReply⟩
      (some (GoError.errString "boom"))).2.2.1 (by decide),
   (natsReader_ackFn_spec ⟨some (GoError.errString "ack fail"), none⟩ none).2.1 rfl,
   (natsReader_ackFn_spec ⟨some (GoError.errString "ack fail"), none⟩ none).2.2.2
      (by decide)⟩

/-! ## Theorems for the air-gap readers (claims C4-C7) -/

/-- Claim C4: for both air-gap reader variants, a Read on the inner
input that returns the sentinel `NotConnected` is surfaced as the
internal `NotConnected` sentinel value, and a Read returning the
sentinel `EndOfInput` is surfaced as the internal `TypeClosed` sentinel
value, with equality on the sentinel values themselves. -/
theorem airgap_sentinel_mapping :
    airGapReadWithContext (ReadResult.err GoError.errNotConnectedPublic)
      = ReadResult.err GoError.errNotConnectedInternal
  ∧ airGapReadWithContext (ReadResult.err GoError.errEndOfInput)
      = ReadResult.err GoError.errTypeClosed
  ∧ airGapBatchReadWithContext (ReadResult.err GoError.errNotConnectedPublic)
      = ReadResult.err GoError.errNotConnectedInternal
  ∧ airGapBatchReadWithContext (ReadResult.err GoError.errEndOfInput)
      = ReadResult.err GoError.errTypeClosed :=
  ⟨rfl, rfl, rfl, rfl⟩

/-- Claim C5: before `CloseAsync`, `WaitForClose(timeout)` returns a
timeout error and the inner input's `Close` has not been invoked; after
`CloseAsync`, `WaitForClose(timeout)` returns nil and the inner
input's `Close` has been invoked. -/
theorem airgap_shutdown_protocol (s : AirGapCloseState)
    (h : s.closeSignalled = false) (h2 : s.innerClosed = false) :
    ((airGapWaitForClose s).2 = some (GoError.errString "action timed out")
      ∧ (airGapWaitForClose s).1.innerClosed = false)
  ∧ ((airGapWaitForClose (airGapCloseAsync s)).2 = none
      ∧ (airGapWaitForClose (airGapCloseAsync s)).1.innerClosed = true) := by
  simp [airGapWaitForClose, airGapCloseAsync, h, h2]

/-- Witness for C5 at the initial state of a fresh air-gap reader. -/
theorem airgap_shutdown_protocol_witness :
    ((airGapWaitForClose airGapInit).2 = some (GoError.errString "action timed out")
      ∧ (airGapWaitForClose airGapInit).1.innerClosed = false)
  ∧ ((airGapWaitForClose (airGapCloseAsync airGapInit)).2 = none
      ∧ (airGapWaitForClose (airGapCloseAsync airGapInit)).1.innerClosed = true) :=
  airgap_shutdown_protocol airGapInit rfl rfl

/-- Claim C6: the batch surfaced by the batch air-gap reader contains
exactly the inner batch's parts, same number and same payload at each
index, and invoking the surfaced ack callback passes the given error
through to the inner ack callback unchanged. -/
theorem airgap_batch_passthrough (msgs : List Message) (ack : AckFn) :
    airGapBatchReadWithContext (ReadResult.ok msgs ack)
      = ReadResult.ok (msgs.map Message.payload) ack
  ∧ (msgs.map Message.payload).length = msgs.length
  ∧ (∀ i : Nat, (msgs.map Message.payload)[i]? = (msgs[i]?).map Message.payload)
  ∧ (∀ e, (airGapBatchReadWithContext (ReadResult.ok msgs ack)).ackOf e = ack e) :=
  ⟨rfl, List.length_map _ _, fun i => List.getElem?_map Message.payload msgs i, fun _ => rfl⟩

/-- Claim C7: an error value that is not one of the known sentinels
propagates unchanged through the air-gap readers: a Connect error such
as `bad connect` is returned verbatim from the adapter's Connect with
no records emitted, and a non-sentinel Read error such as `bad read` is
returned verbatim from the adapter's Read on both variants. -/
theorem airgap_unknown_error_verbatim (s : String) :
    airGapConnectWithContext (some (GoError.errString s))
      = some (GoError.errString s)
  ∧ airGapReadWithContext (ReadResult.err (GoError.errString s))
      = ReadResult.err (GoError.errString s)
  ∧ airGapBatchReadWithContext (ReadResult.err (GoError.errString s))
      = ReadResult.err (GoError.errString s) :=
  ⟨rfl, rfl, rfl⟩

/-! ## Theorems for the fallback broker (claims C1-C3, C8) -/

/-- The all-fail chain of three children used by the tests. -/
def threeFails : List (Option GoError) :=
  [some (GoError.errString "test error"), some (GoError.errString "test error"),
   some (GoError.errString "test error")]

/-- Ten transactions, each walked through the all-fail chain of three
children. -/
def tenTxs : List (List (Option GoError)) := List.replicate 10 threeFails

/-- Claim C1: within a fallback walk, the batch is delivered to child
`i + 1` only strictly after child `i` acked the same batch with a
failure; in particular, if the first child acks success, the trace is
exactly a delivery to child 0, its success ack, and a success ack on
the upstream response-sink — so no later child ever observes the
batch. -/
theorem fallback_ordered_delivery (acks : List (Option GoError)) :
    (∀ j, FbEvent.deliver (j + 1) ∈ fallbackTrace acks →
      ∃ (p q : Nat) (e : GoError), p < q
        ∧ (fallbackTrace acks)[p]? = some (FbEvent.childAck j (some e))
        ∧ (fallbackTrace acks)[q]? = some (FbEvent.deliver (j + 1)))
  ∧ (∀ rest, acks = none :: rest →
      fallbackTrace acks
        = [FbEvent.deliver 0, FbEvent.childAck 0 none, FbEvent.respond none]) := by
  constructor
  · intro j h
    exact fallback_deliver_after_nack acks 0 j (Nat.zero_le j) h
  · rintro rest rfl
    cases rest <;> rfl

/-- Witness for C1: on the chain where child 0 nacks with `test err`
and child 1 succeeds, the delivery to child 1 is preceded by child 0's
failure ack; and on a chain whose first child succeeds the trace stops
at child 0 with upstream success. -/
theorem fallback_ordered_delivery_witness :
    (∃ (p q : Nat) (e : GoError), p < q
      ∧ (fallbackTrace [some (GoError.errString "test err"), none])[p]?
          = some (FbEvent.childAck 0 (some e))
      ∧ (fallbackTrace [some (GoError.errString "test err"), none])[q]?
          = some (FbEvent.deliver 1))
  ∧ fallbackTrace [none, some (GoError.errString "test err")]
      = [FbEvent.deliver 0, FbEvent.childAck 0 none, FbEvent.respond none] :=
  ⟨(fallback_ordered_delivery [some (GoError.errString "test err"), none]).1 0
      (by decide),
   (fallback_ordered_delivery [none, some (GoError.errString "test err")]).2
      [some (GoError.errString "test err")] rfl⟩

/-- Claim C2: when every child of the fallback broker nacks the batch,
the upstream response-sink receives exactly one ack — the failure
reported by the last child — and the children observe the batch exactly
once each, in chain order. -/
theorem fallback_all_fail_last_error (acks : List (Option GoError))
    (h : acks ≠ []) (hall : ∀ a ∈ acks, a.isSome) :
    respondsOf (fallbackTrace acks) = [acks.getLast h]
  ∧ deliversOf (fallbackTrace acks) = List.range acks.length := by
  constructor
  · rw [fallbackTrace, respondsOf_fallbackWalkFrom,
      fallbackResult_allFail acks h hall]
  · rw [fallbackTrace, deliversOf_fallbackWalkFrom_allFail 0 acks hall,
      List.range_eq_range']

/-- Witness for C2 at the concrete all-fail chain of three children
nacking with `test error`. -/
theorem fallback_all_fail_last_error_witness :
    respondsOf (fallbackTrace threeFails) = [threeFails.getLast (by decide)]
  ∧ deliversOf (fallbackTrace threeFails) = List.range threeFails.length :=
  fallback_all_fail_last_error threeFails (by decide) (by decide)

/-- Claim C3: ack conservation across concurrent in-flight
transactions.  Each walking task is independent, so for every
transaction submitted, exactly one ack is sent on that transaction's
response-sink; and with `k` children all nacking, each child observes
each transaction's batch exactly once, hence across `n` transactions
each child's tally is `n`. -/
theorem fallback_parallel_ack_conservation (txs : List (List (Option GoError)))
    (k : Nat)
    (hlen : ∀ t ∈ txs, t.length = k)
    (hfail : ∀ t ∈ txs, ∀ a ∈ t, a.isSome) :
    (∀ t ∈ txs, (respondsOf (fallbackTrace t)).length = 1)
  ∧ (∀ j < k,
      ((txs.map (fun t => deliversOf (fallbackTrace t))).flatten).count j
        = txs.length) := by
  constructor
  · intro t _
    rw [fallbackTrace, respondsOf_fallbackWalkFrom]
    rfl
  · intro j hj
    have hlen2 : (txs.map (fun t => deliversOf (fallbackTrace t))).length
        = txs.length := List.length_map _ _
    rw [← hlen2]
    apply count_join_of_count_eq_one
    intro l hl
    rw [List.mem_map] at hl
    obtain ⟨t, ht, rfl⟩ := hl
    rw [fallbackTrace, deliversOf_fallbackWalkFrom_allFail 0 t (hfail t ht),
      ← List.range_eq_range', hlen t ht]
    exact List.count_eq_one_of_mem (List.nodup_range k) (List.mem_range.mpr hj)

/-- Witness for C3: ten transactions walked through the all-fail
three-child chain — one upstream ack for a transaction, and child 2
tallies ten observations. -/
theorem fallback_parallel_ack_conservation_witness :
    (respondsOf (fallbackTrace threeFails)).length = 1
  ∧ ((tenTxs.map (fun t => deliversOf (fallbackTrace t))).flatten).count 2
      = tenTxs.length :=
  ⟨(fallback_parallel_ack_conservation tenTxs 3 (by decide)
      (by decide)).1 threeFails (by decide),
   (fallback_parallel_ack_conservation tenTxs 3 (by decide)
      (by decide)).2 2 (by decide)⟩

/-- Claim C8: `CloseAsync` on the fallback broker never panics, and
calling it any positive number of times yields the same outcome as
calling it once (in particular twice in succession). -/
theorem fallback_closeAsync_idempotent (b : FallbackBrokerState) :
    (fallbackBroker.CloseAsync b).isSome
  ∧ ∀ n, closeAsyncN (n + 1) b = fallbackBroker.CloseAsync b := by
  constructor
  · by_cases hb : b.shutChanClosed <;>
      simp [fallbackBroker.CloseAsync, goCloseChan, hb]
  · intro n
    induction n generalizing b with
    | zero =>
      show (fallbackBroker.CloseAsync b).bind (closeAsyncN 0)
        = fallbackBroker.CloseAsync b
      cases fallbackBroker.CloseAsync b <;> rfl
    | succ m ih =>
      obtain ⟨b', hb'⟩ : ∃ b', fallbackBroker.CloseAsync b = some b' := by
        by_cases hb : b.shutChanClosed <;>
          simp [fallbackBroker.CloseAsync, goCloseChan, hb]
      show (fallbackBroker.CloseAsync b).bind (closeAsyncN (m + 1))
        = fallbackBroker.CloseAsync b
      rw [hb']
      show closeAsyncN (m + 1) b' = some b'
      rw [ih b', fallbackBroker_CloseAsync_fix b b' hb']

end Benthos
